import Mathlib

/-!
Formal model of src/gaudi/genes/torsion.py: the Torsion gene provider of the
GAUDI evolutionary conformational search.  Python floats are modelled as exact
rationals, random draws and the internals of the deap operators are supplied
by explicit oracles, and the chimera rotation engine is an explicit parameter
of bond discovery.  Definitions follow the Python source line by line; the
few places where an external collaborator had to be modelled from its
documented contract are marked in their doc comments.
-/

namespace GaudiTorsion

/-- Model of a chimera atom, carrying exactly the attributes torsion.py reads:
serialNumber, name, idatmType, numBonds and the element.isMetal flag. -/
structure Atom where
  serialNumber : Nat
  name : String
  idatmType : String
  numBonds : Nat
  isMetal : Bool
deriving DecidableEq

/-- Model of a chimera bond: the list of its (two) endpoint atoms, as iterated
by torsion.py through b.atoms and conditions(*b.atoms). -/
structure Bond where
  atoms : List Atom
deriving DecidableEq

/-- Model of a chimera molecule: its atom list and bond list. -/
structure Molecule where
  atoms : List Atom
  bonds : List Bond
deriving DecidableEq

/-- Model of the chimera attribute a.bonds: the bonds of the molecule that are
incident to the atom a. -/
def atomBonds (mol : Molecule) (a : Atom) : List Bond :=
  mol.bonds.filter (fun b => b.atoms.contains a)

/-- The bond-collection comprehension of rotatable_bonds (torsion.py line 155):
set(b for a in atoms for b in a.bonds if not a.element.isMetal).  The Python
set is modelled by dedup; its iteration order is unspecified and irrelevant
after the sort. -/
def collectedBonds (mol : Molecule) : List Bond :=
  ((mol.atoms.filter (fun a => !a.isMetal)).flatMap (fun a => atomBonds mol a)).dedup

/-- Sort key of torsion.py line 156: min(y.serialNumber for y in b.atoms).
Python min would raise on an atomless bond; that case is defaulted to 0. -/
def minSerial (b : Bond) : Nat :=
  ((b.atoms.map (fun a => a.serialNumber)).min?).getD 0

/-- The deduplicated, sorted candidate-bond list of rotatable_bonds
(torsion.py lines 155-156). -/
def candidateBonds (mol : Molecule) : List Bond :=
  (collectedBonds mol).mergeSort (fun b1 b2 => minSerial b1 ≤ minSerial b2)

/-- The inner conditions predicate of rotatable_bonds (torsion.py lines
158-172), translated loop by loop: any dummy (DUM) atom accepts outright;
then any terminal atom (numBonds <= 1) rejects; then acceptance requires some
atom outside self.nonrotatable whose idatmType lies in the hardcoded tuple
(C3, N3, C2, N2, P).  The Python fallthrough returns None, i.e. falsy. -/
def conditions (nonrotatable : List Atom) (atoms : List Atom) : Bool :=
  if atoms.any (fun a => a.name == "DUM") then true
  else if atoms.any (fun a => decide (a.numBonds ≤ 1)) then false
  else atoms.any (fun a =>
    !(nonrotatable.contains a) && ["C3", "N3", "C2", "N2", "P"].contains a.idatmType)

/-- Follows the spec's words (section 4.1 step 3): identical to conditions
except that the accepted hybridization types are the configured
rotatable_atom_types set rather than a hardcoded tuple. -/
def conditionsSpec (rotatable_atom_types : List String) (nonrotatable : List Atom)
    (atoms : List Atom) : Bool :=
  if atoms.any (fun a => a.name == "DUM") then true
  else if atoms.any (fun a => decide (a.numBonds ≤ 1)) then false
  else atoms.any (fun a =>
    !(nonrotatable.contains a) && rotatable_atom_types.contains a.idatmType)

/-- The default value of the rotatable_atom_types parameter
(torsion.py line 81). -/
def defaultRotatableAtomTypes : List String :=
  ["C3", "N3", "C2", "N2", "P"]

/-- Model of a chimera BondRot handle: the wrapped bond, the recorded rotation
angle (0 at creation) and the rotanchor attribute stored by rotatable_bonds.
The id field gives handles an identity, so that distinct creations of handles
for equal data are distinguishable, as Python objects are. -/
structure BondRot where
  id : Nat
  bond : Bond
  angle : ℚ
  rotanchor : Atom
deriving DecidableEq

/-- Modelled from the spec: chimera.BondRot.adjustAngle is part of the external
rotation engine (spec section 6: Handle.apply_delta / Handle.current_angle).
Applying a delta increments the recorded angle by that delta; the anchor
argument selects the fixed side and does not affect the recorded angle. -/
def adjustAngle (br : BondRot) (delta : ℚ) (anch : Atom) : BondRot :=
  { br with angle := br.angle + delta }

/-- The planarity test of express (torsion.py line 98):
all(a.idatmType in (C2, N2) for a in br.bond.atoms). -/
def allPlanar (b : Bond) : Bool :=
  b.atoms.all (fun a => ["C2", "N2"].contains a.idatmType)

/-- One slot of express (torsion.py lines 96-100): snap the allele value to
0 or 180 when both atoms are planar (alpha = 0 if alpha < 180 else 180), then
apply the delta alpha - br.angle from the stored rotanchor. -/
def expressBond (alpha : ℚ) (br : BondRot) : BondRot :=
  let alpha' := if allPlanar br.bond then (if alpha < 180 then 0 else 180) else alpha
  adjustAngle br (alpha' - br.angle) br.rotanchor

/-- express (torsion.py lines 92-103): izip pairs allele values with rotatable
bonds in lockstep, stopping at the shorter sequence; surplus bonds are left
untouched and surplus alleles unused. -/
def express : List ℚ → List BondRot → List BondRot
  | _, [] => []
  | [], brs => brs
  | alpha :: rest, br :: brs => expressBond alpha br :: express rest brs

/-- One slot of unexpress (torsion.py line 110): apply the negative of the
current recorded angle. -/
def unexpressBond (br : BondRot) : BondRot :=
  adjustAngle br (-br.angle) br.rotanchor

/-- unexpress (torsion.py lines 105-110): undo the rotation of every currently
known rotatable bond. -/
def unexpress (brs : List BondRot) : List BondRot :=
  brs.map unexpressBond

/-- Follows the spec's words for the planar snap of claim C3: whichever of
exactly 0 or 180 degrees is nearest to the allele value. -/
def nearestSnap (alpha : ℚ) : ℚ :=
  if |alpha - 0| ≤ |alpha - 180| then 0 else 180

/-- The flexibility clamp of the constructor (torsion.py line 85):
360.0 if flexibility > 360 else flexibility. -/
def flexibilityInit (flexibility : ℚ) : ℚ :=
  if flexibility > 360 then 360 else flexibility

/-- random_angle (torsion.py lines 124-128): random.uniform(lo, hi) is
lo + (hi - lo) * r for a draw r supplied here as an explicit oracle value,
with lo = -0.5 * flexibility and hi = 0.5 * flexibility. -/
def random_angle (flexibility : ℚ) (r : ℚ) : ℚ :=
  -(1/2) * flexibility + ((1/2) * flexibility - -(1/2) * flexibility) * r

/-- The allele built by the constructor (torsion.py line 90):
[self.random_angle() for i in xrange(self.max_bonds)], with the i-th uniform
draw supplied by the oracle rnd. -/
def initAllele (flexibility : ℚ) (max_bonds : Nat) (rnd : Nat → ℚ) : List ℚ :=
  (List.range max_bonds).map (fun i => random_angle flexibility (rnd i))

/-- The clamp min(max(x, lo), hi) used by both deap bounded operators. -/
def clamp (lo hi x : ℚ) : ℚ :=
  min (max x lo) hi

/-- Oracle record for one index of deap.tools.cxSimulatedBinaryBounded: doCross
is the draw random.random() <= 0.5 guarding the slot, c1 and c2 are the raw
child values produced by the beta_q spread formula from further draws (the
formula involves real powers of random numbers and is abstracted into the
oracle; everything after it is translated exactly), and swap is the final
draw random.random() <= 0.5 that exchanges the two children. -/
structure CxDraw where
  doCross : Bool
  c1 : ℚ
  c2 : ℚ
  swap : Bool

/-- One index of deap.tools.cxSimulatedBinaryBounded: if the slot is selected
and the parents differ by more than 1e-14, both children are clamped to
[lo, hi] and optionally swapped; otherwise the parents pass through. -/
def cxPair (d : CxDraw) (lo hi x1 x2 : ℚ) : ℚ × ℚ :=
  if d.doCross ∧ (1 / 100000000000000 : ℚ) < |x1 - x2| then
    let a := clamp lo hi d.c1
    let b := clamp lo hi d.c2
    if d.swap then (b, a) else (a, b)
  else (x1, x2)

/-- Recursion of cxSimulatedBinaryBounded over both parents in lockstep, up to
the shorter length; the longer tail is left unchanged, as deap only touches
indices below min(len(ind1), len(ind2)). -/
def cxAux (draws : Nat → CxDraw) (lo hi : ℚ) : Nat → List ℚ → List ℚ → List ℚ × List ℚ
  | _, [], ys => ([], ys)
  | _, x :: xs, [] => (x :: xs, [])
  | i, x :: xs, y :: ys =>
    let p := cxPair (draws i) lo hi x y
    let q := cxAux draws lo hi (i + 1) xs ys
    (p.1 :: q.1, p.2 :: q.2)

/-- deap.tools.cxSimulatedBinaryBounded, modelled with the per-index oracle
draws; deap mutates both individuals in place and returns them, modelled here
by returning the pair of updated lists. -/
def cxSimulatedBinaryBounded (draws : Nat → CxDraw) (lo hi : ℚ)
    (ind1 ind2 : List ℚ) : List ℚ × List ℚ :=
  cxAux draws lo hi 0 ind1 ind2

/-- mate (torsion.py lines 112-115): crossover of the two alleles with bounds
low = -0.5 * flexibility, up = 0.5 * flexibility; both alleles are replaced in
place by the operator's outputs (slice assignment). -/
def Torsion.mate (flexibility : ℚ) (draws : Nat → CxDraw)
    (allele mateAllele : List ℚ) : List ℚ × List ℚ :=
  cxSimulatedBinaryBounded draws (-(1/2) * flexibility) ((1/2) * flexibility)
    allele mateAllele

/-- Oracle record for one index of deap.tools.mutPolynomialBounded: r is the
draw random.random() compared against indpb, and raw is the pre-clamp mutated
value x + delta_q * (up - low) produced by the polynomial formula from a
further draw (the formula involves real powers and is abstracted into the
oracle; the clamp and the update structure are translated exactly). -/
structure MutDraw where
  r : ℚ
  raw : ℚ

/-- deap.tools.mutPolynomialBounded over the list starting at index i: each
slot mutates exactly when its draw r is at most indpb, in which case the raw
mutated value is clamped to [lo, hi]; otherwise the slot is unchanged. -/
def mutPolynomialBounded (draws : Nat → MutDraw) (indpb lo hi : ℚ) :
    Nat → List ℚ → List ℚ
  | _, [] => []
  | i, x :: xs =>
    (if (draws i).r ≤ indpb then clamp lo hi (draws i).raw else x) ::
      mutPolynomialBounded draws indpb lo hi (i + 1) xs

/-- mutate (torsion.py lines 117-121): polynomial-bounded mutation of the
allele with bounds low = -0.5 * flexibility, up = 0.5 * flexibility.  The
probability passed to deap is self.indpb, the gene's configured attribute; the
indpbArg parameter mirrors the unused indpb argument of the Python method. -/
def Torsion.mutate (selfIndpb flexibility : ℚ) (draws : Nat → MutDraw)
    (allele : List ℚ) (indpbArg : ℚ) : List ℚ :=
  mutPolynomialBounded draws selfIndpb (-(1/2) * flexibility)
    ((1/2) * flexibility) 0 allele

/-- Follows the spec's words for claim C8: the same mutation, but with the
indpb argument of the call used as the per-allele mutation probability. -/
def Torsion.mutateSpec (selfIndpb flexibility : ℚ) (draws : Nat → MutDraw)
    (allele : List ℚ) (indpbArg : ℚ) : List ℚ :=
  mutPolynomialBounded draws indpbArg (-(1/2) * flexibility)
    ((1/2) * flexibility) 0 allele

/-- Python substring containment, as in the expression "cycle" in str(v). -/
def strContains (s sub : String) : Bool :=
  (List.range (s.toList.length + 1)).any
    (fun i => sub.toList.isPrefixOf (s.toList.drop i))

/-- Outcome of one invocation of chimera.BondRot(b): success, or an exception;
catchable records whether the exception is an instance of
(chimera.error, ValueError), the only types the except clause of
rotatable_bonds catches, and msg is str(v). -/
inductive EngineOutcome where
  | ok : EngineOutcome
  | exn (catchable : Bool) (msg : String) : EngineOutcome
deriving DecidableEq

/-- State threaded through bond discovery: the class-level BONDS_ROTS cache
(torsion.py line 78) as an association list, the allocator for handle
identities, the list of bonds on which chimera.BondRot has been invoked
(successfully or not), and the messages passed to logger.info. -/
structure DiscoveryState where
  cache : List (Bond × BondRot)
  nextId : Nat
  creations : List Bond
  log : List String
deriving DecidableEq

/-- The empty initial state: BONDS_ROTS = {} (torsion.py line 78). -/
def emptyState : DiscoveryState :=
  { cache := [], nextId := 0, creations := [], log := [] }

/-- Dictionary lookup in the BONDS_ROTS cache; none models the KeyError
branch. -/
def lookupCache (cache : List (Bond × BondRot)) (b : Bond) : Option BondRot :=
  (cache.find? (fun e => e.1 == b)).map (fun e => e.2)

/-- Number of cache entries whose key is the bond b. -/
def keyCount (cache : List (Bond × BondRot)) (b : Bond) : Nat :=
  (cache.map (fun e => e.1)).count b

/-- The body of the per-bond loop of rotatable_bonds (torsion.py lines
174-194).  Parameters: nonrot is self.nonrotatable, anch is the resolved
self.anchor atom, fN models box.find_nearest (that helper lives outside the
analysed sources; per the spec it picks the bond endpoint nearest the anchor,
and no property here depends on its value), and engine gives the outcome of
chimera.BondRot(b).  The result is none when the bond is skipped (cache miss
with failing conditions, a caught cycle error, or a caught already-used
error), some br when a handle is yielded, and Except.error when an exception
propagates (a non-catchable type, or a catchable one whose message mentions
neither cycle nor already used, which is re-raised). -/
def discoverStep (nonrot : List Atom) (anch : Atom) (fN : Atom → List Atom → Atom)
    (engine : Bond → EngineOutcome) (st : DiscoveryState) (b : Bond) :
    Except String (DiscoveryState × Option BondRot) :=
  match lookupCache st.cache b with
  | some br => .ok (st, some br)
  | none =>
    if conditions nonrot b.atoms then
      let st1 := { st with creations := st.creations ++ [b] }
      match engine b with
      | .ok =>
        let br : BondRot :=
          { id := st1.nextId, bond := b, angle := 0, rotanchor := fN anch b.atoms }
        .ok ({ st1 with cache := st1.cache ++ [(b, br)], nextId := st1.nextId + 1 },
          some br)
      | .exn catchable msg =>
        if catchable then
          if strContains msg "cycle" then .ok (st1, none)
          else if strContains msg "already used" then
            .ok ({ st1 with log := st1.log ++ [msg] }, none)
          else .error msg
        else .error msg
    else .ok (st, none)

/-- The rotatable_bonds generator (torsion.py lines 174-194), run over the
sorted candidate-bond list: threads the discovery state through every bond and
collects the yielded handles in order; a propagating exception aborts the
run. -/
def rotatable_bonds (nonrot : List Atom) (anch : Atom)
    (fN : Atom → List Atom → Atom) (engine : Bond → EngineOutcome) :
    DiscoveryState → List Bond → Except String (DiscoveryState × List BondRot)
  | st, [] => .ok (st, [])
  | st, b :: bs =>
    match discoverStep nonrot anch fN engine st b with
    | .error e => .error e
    | .ok (st1, none) => rotatable_bonds nonrot anch fN engine st1 bs
    | .ok (st1, some br) =>
      match rotatable_bonds nonrot anch fN engine st1 bs with
      | .error e => .error e
      | .ok (st2, brs) => .ok (st2, br :: brs)

/-- Python exceptions the anchor property can raise or swallow. -/
inductive PyErr where
  | keyError (key : String) : PyErr
  | attributeError (attr : String) : PyErr
deriving DecidableEq

/-- Modelled from the spec: the sibling-gene records held by the owning
individual (gaudi.base, outside the analysed sources; spec section 6 describes
the sibling gene registry and the Molecule collaborator).  className and
target drive the Search-gene lookup of the anchor property; searchAnchor is
the anchor attribute a Search gene may carry (none models an absent
attribute, raising AttributeError on access); atomList is the atoms attribute
a molecule gene may carry (likewise optional); compoundMol is
compound.mol.atoms; donor is compound.donor (none models an absent
attribute). -/
structure Gene where
  className : String
  target : String
  searchAnchor : Option Nat
  atomList : Option (List Atom)
  compoundMol : List Atom
  donor : Option Atom
deriving DecidableEq

/-- Modelled from the spec: the owning individual (self.parent, gaudi.base,
outside the analysed sources), holding the _molecules mapping and the genes
mapping, both ordered name-to-gene association lists with standard Python
dict semantics (KeyError on a missing key). -/
structure Parent where
  molecules : List (String × Gene)
  genes : List (String × Gene)
deriving DecidableEq

/-- Ordered dictionary lookup by name. -/
def lookupGene (m : List (String × Gene)) (k : String) : Option Gene :=
  (m.find? (fun e => e.1 == k)).map (fun e => e.2)

/-- The generator expression next(a for a in atoms if a.serialNumber == s);
none models StopIteration. -/
def findAtom (serial : Nat) (atoms : List Atom) : Option Atom :=
  atoms.find? (fun a => a.serialNumber == serial)

/-- The Search-collaborator lookup of the anchor property (torsion.py lines
215-217): the first gene, in genes.values() order, whose class name is Search
and whose target matches. -/
def findSearch (p : Parent) (target : String) : Option Gene :=
  (p.genes.map (fun e => e.2)).find?
    (fun g => g.className == "Search" && g.target == target)

/-- The donor fallback self.parent.genes[self.target].compound.donor
(torsion.py lines 219 and 225): a missing target gene raises KeyError and a
missing donor attribute raises AttributeError, neither of which the anchor
property catches. -/
def donorOf (p : Parent) (target : String) : Except PyErr Atom :=
  match lookupGene p.genes target with
  | none => .error (.keyError target)
  | some g =>
    match g.donor with
    | none => .error (.attributeError "donor")
    | some d => .ok d

/-- The anchor property (torsion.py lines 196-226), translated branch by
branch.  Step 1 (explicit spec): the try block catches only StopIteration, so
a missing molecule name in parent._molecules raises KeyError uncaught, while
a missing atom serial falls through.  Step 2 (Search sibling): a missing
collaborator (StopIteration) falls to the donor; with a collaborator, the
inner try catches StopIteration and AttributeError, so a missing atoms
attribute, a missing anchor attribute on the Search gene, or an unmatched
serial all fall to the donor.  The donor lookup itself is outside any try. -/
def anchor (p : Parent) (target : String) (anchorSpec : Option (String × Nat)) :
    Except PyErr Atom :=
  let step1 : Except PyErr (Option Atom) :=
    match anchorSpec with
    | none => .ok none
    | some (mol, serial) =>
      match lookupGene p.molecules mol with
      | none => .error (.keyError mol)
      | some mg => .ok (findAtom serial mg.compoundMol)
  match step1 with
  | .error e => .error e
  | .ok (some a) => .ok a
  | .ok none =>
    match findSearch p target with
    | none => donorOf p target
    | some search =>
      match lookupGene p.genes target with
      | none => .error (.keyError target)
      | some tg =>
        match tg.atomList, search.searchAnchor with
        | some ats, some serial =>
          match findAtom serial ats with
          | some a => .ok a
          | none => donorOf p target
        | _, _ => donorOf p target

/-! Concrete inputs used by counterexamples and witnesses. -/

/-- A non-terminal phosphorus atom. -/
def pAtomA : Atom :=
  { serialNumber := 1, name := "P1", idatmType := "P", numBonds := 2, isMetal := false }

/-- A second non-terminal phosphorus atom. -/
def pAtomB : Atom :=
  { serialNumber := 2, name := "P2", idatmType := "P", numBonds := 2, isMetal := false }

/-- A planar (sp2) carbon atom. -/
def planarAtomA : Atom :=
  { serialNumber := 1, name := "C1", idatmType := "C2", numBonds := 2, isMetal := false }

/-- A second planar (sp2) carbon atom. -/
def planarAtomB : Atom :=
  { serialNumber := 2, name := "C2a", idatmType := "C2", numBonds := 2, isMetal := false }

/-- A bond between two planar atoms. -/
def planarBond : Bond :=
  { atoms := [planarAtomA, planarAtomB] }

/-- A rotation handle for the planar bond, at the 0-degree baseline. -/
def planarBR : BondRot :=
  { id := 0, bond := planarBond, angle := 0, rotanchor := planarAtomA }

/-- A metal (iron) atom. -/
def mAtom : Atom :=
  { serialNumber := 1, name := "FE1", idatmType := "Fe", numBonds := 1, isMetal := true }

/-- A non-metal carbon atom. -/
def cAtom : Atom :=
  { serialNumber := 2, name := "C1", idatmType := "C3", numBonds := 1, isMetal := false }

/-- A bond between the metal atom and the carbon atom. -/
def mcBond : Bond :=
  { atoms := [mAtom, cAtom] }

/-- A two-atom molecule with one metal-carbon bond. -/
def mcMol : Molecule :=
  { atoms := [mAtom, cAtom], bonds := [mcBond] }

/-- A non-terminal sp3 carbon atom. -/
def rAtomX : Atom :=
  { serialNumber := 3, name := "X1", idatmType := "C3", numBonds := 2, isMetal := false }

/-- A second non-terminal sp3 carbon atom. -/
def rAtomY : Atom :=
  { serialNumber := 4, name := "Y1", idatmType := "C3", numBonds := 2, isMetal := false }

/-- A bond satisfying the classification conditions. -/
def rBond : Bond :=
  { atoms := [rAtomX, rAtomY] }

/-- An engine that always fails with the cycle error chimera raises for bonds
inside rings. -/
def cycEngine : Bond → EngineOutcome :=
  fun b => .exn true "BondRot: bond is part of a cycle"

/-- A trivial stand-in for box.find_nearest, returning the anchor itself. -/
def fNid : Atom → List Atom → Atom :=
  fun a l => a

/-- An engine that always fails with the catchable error chimera raises for a
bond already owned by another BondRot. -/
def usedEngine : Bond → EngineOutcome :=
  fun b => .exn true "BondRot: bond already used"

/-- An engine that always fails with a catchable error of some other
message. -/
def otherEngine : Bond → EngineOutcome :=
  fun b => .exn true "BondRot: unexpected state"

/-- An engine that always fails with a non-catchable exception type whose
message nevertheless mentions a cycle. -/
def fatalEngine : Bond → EngineOutcome :=
  fun b => .exn false "BondRot: bond is part of a cycle"

/-- A terminal atom (a single bond). -/
def termAtomA : Atom :=
  { serialNumber := 5, name := "T1", idatmType := "C3", numBonds := 1, isMetal := false }

/-- A second terminal atom. -/
def termAtomB : Atom :=
  { serialNumber := 6, name := "T2", idatmType := "C3", numBonds := 1, isMetal := false }

/-- A bond between two terminal atoms: conditions rejects it. -/
def termBond : Bond :=
  { atoms := [termAtomA, termAtomB] }

/-- A handle for the terminal bond, as if cached by an earlier gene whose
classification accepted it. -/
def cachedBR : BondRot :=
  { id := 0, bond := termBond, angle := 5, rotanchor := termAtomA }

/-- A discovery state whose cache already holds the terminal bond. -/
def cachedSt : DiscoveryState :=
  { cache := [(termBond, cachedBR)], nextId := 1, creations := [termBond], log := [] }

/-- A mutation oracle that always fires (draw 1/2) with raw value 7. -/
def mutDrawEx : Nat → MutDraw :=
  fun i => { r := 1/2, raw := 7 }

/-- A crossover oracle that always crosses with raw children 100 and -100,
without the final swap. -/
def cxDrawEx : Nat → CxDraw :=
  fun i => { doCross := true, c1 := 100, c2 := -100, swap := false }

/-- The donor atom of the example molecule gene. -/
def donorAtom : Atom :=
  { serialNumber := 9, name := "D1", idatmType := "C3", numBonds := 2, isMetal := false }

/-- An example molecule gene named lig, with a donor and one molecule atom. -/
def targetGene : Gene :=
  { className := "Molecule", target := "lig", searchAnchor := none,
    atomList := some [donorAtom, rAtomX], compoundMol := [donorAtom, rAtomX],
    donor := some donorAtom }

/-- An example Search gene pointing its anchor at serial 3 of lig. -/
def searchGene : Gene :=
  { className := "Search", target := "lig", searchAnchor := some 3,
    atomList := none, compoundMol := [], donor := none }

/-- An example parent whose only molecule and target gene is lig. -/
def parentEx : Parent :=
  { molecules := [("lig", targetGene)], genes := [("lig", targetGene)] }

/-- An example parent that also holds a Search gene for lig. -/
def parentSearchEx : Parent :=
  { molecules := [("lig", targetGene)],
    genes := [("lig", targetGene), ("search", searchGene)] }

/-- An example Search gene whose anchor serial matches no atom of lig. -/
def searchGeneMiss : Gene :=
  { className := "Search", target := "lig", searchAnchor := some 77,
    atomList := none, compoundMol := [], donor := none }

/-- An example parent whose Search gene anchor fails to resolve. -/
def parentSearchMiss : Parent :=
  { molecules := [("lig", targetGene)],
    genes := [("lig", targetGene), ("search", searchGeneMiss)] }

/-! Theorems. -/

/-- C1: the classification of rotatable_bonds agrees with the documented rule
only when rotatable_atom_types is left at its default: the code tests
membership in the hardcoded tuple (C3, N3, C2, N2, P) and never consults the
configured set.  With rotatable_atom_types = [C3] and a bond between two
non-terminal phosphorus atoms, the code accepts the bond while the documented
configured-set rule rejects it. -/
theorem C1_conditions_hardcodes_atom_types :
    (∀ nonrot ats, conditions nonrot ats =
      conditionsSpec defaultRotatableAtomTypes nonrot ats) ∧
    conditions [] [pAtomA, pAtomB] = true ∧
    conditionsSpec ["C3"] [] [pAtomA, pAtomB] = false :=
  ⟨fun _ _ => rfl, by decide, by decide⟩

/-- C3 counterexample: with both atoms planar and allele value 170, express
sets the recorded angle to 0, while the nearest of 0 and 180 to 170 is 180;
the snap is not to the nearest of the two values. -/
theorem C3_counterexample_snap_not_nearest :
    (expressBond 170 planarBR).angle = 0 ∧ nearestSnap 170 = 180 := by
  constructor
  · norm_num [expressBond, adjustAngle, allPlanar, planarBR, planarBond,
      planarAtomA, planarAtomB]
  · norm_num [nearestSnap]

/-- C3 amended: when both atoms of the bond are planar (C2 or N2 idatmType),
express snaps the recorded angle to 0 when the allele value is below 180 and
to 180 otherwise, and in particular never to an intermediate value. -/
theorem C3_amended_planar_snap :
    ∀ (alpha : ℚ) (br : BondRot), allPlanar br.bond = true →
      (expressBond alpha br).angle = (if alpha < 180 then 0 else 180) ∧
      ((expressBond alpha br).angle = 0 ∨ (expressBond alpha br).angle = 180) := by
  intro alpha br h
  have hval : (expressBond alpha br).angle = (if alpha < 180 then 0 else 180) := by
    simp only [expressBond, adjustAngle, h, if_true]
    split <;> ring
  refine ⟨hval, ?_⟩
  rw [hval]
  split
  · exact Or.inl rfl
  · exact Or.inr rfl

/-- C3 amended witness: the snap at allele value 170 on the planar example
bond. -/
theorem C3_amended_planar_snap_witness :
    allPlanar planarBR.bond = true ∧
    ((expressBond 170 planarBR).angle = (if (170 : ℚ) < 180 then 0 else 180) ∧
      ((expressBond 170 planarBR).angle = 0 ∨ (expressBond 170 planarBR).angle = 180)) :=
  ⟨by decide, C3_amended_planar_snap 170 planarBR (by decide)⟩

/-- C4: a bond expressed with any allele value and then unexpressed has its
recorded angle back at the 0-degree baseline, including when the planarity
snap was applied; likewise every handle left by unexpress after express sits
at angle 0. -/
theorem C4_express_unexpress_returns_zero :
    (∀ (alpha : ℚ) (br : BondRot), (unexpressBond (expressBond alpha br)).angle = 0) ∧
    (∀ (allele : List ℚ) (brs : List BondRot),
      ((unexpress (express allele brs)).all (fun br => br.angle == 0)) = true) := by
  have hz : ∀ br : BondRot, (unexpressBond br).angle = 0 := by
    intro br
    simp [unexpressBond, adjustAngle]
  constructor
  · intro alpha br
    exact hz (expressBond alpha br)
  · intro allele brs
    rw [List.all_eq_true]
    intro br hbr
    rcases List.mem_map.mp hbr with ⟨br0, _, hmap⟩
    have : br.angle = 0 := by rw [← hmap]; exact hz br0
    simp [this]

/-- C9 counterexample: in a molecule where a metal atom is bonded to a carbon
atom, that metal-carbon bond does appear among the candidate bonds, because
the comprehension keeps every bond of each non-metal atom; a bond is dropped
only when all of its endpoints are metal. -/
theorem C9_counterexample_metal_endpoint_collected :
    mcBond ∈ candidateBonds mcMol ∧ (mcBond.atoms.any (fun a => a.isMetal)) = true := by
  constructor
  · rw [candidateBonds, List.mem_mergeSort]
    decide
  · decide

/-- C9 amended: the bond-collection step excludes exactly the bonds having no
non-metal endpoint among the molecule's atoms: a bond is a candidate iff it is
a molecule bond incident to at least one non-metal atom. -/
theorem C9_amended_metal_only_excluded :
    ∀ (mol : Molecule) (b : Bond),
      b ∈ candidateBonds mol ↔
        b ∈ mol.bonds ∧ ∃ a, a ∈ mol.atoms ∧ a.isMetal = false ∧ a ∈ b.atoms := by
  intro mol b
  rw [candidateBonds, List.mem_mergeSort, collectedBonds, List.mem_dedup,
    List.mem_flatMap]
  constructor
  · rintro ⟨a, ha, hb⟩
    rcases List.mem_filter.mp ha with ⟨hmem, hnm⟩
    rcases List.mem_filter.mp hb with ⟨hbb, hcont⟩
    refine ⟨hbb, a, hmem, by simpa using hnm, ?_⟩
    simpa using hcont
  · rintro ⟨hbb, a, hmem, hnm, hab⟩
    refine ⟨a, List.mem_filter.mpr ⟨hmem, by simp [hnm]⟩,
      List.mem_filter.mpr ⟨hbb, by simpa using hab⟩⟩

lemma clamp_mem (lo hi x : ℚ) (h : lo ≤ hi) :
    lo ≤ clamp lo hi x ∧ clamp lo hi x ≤ hi := by
  unfold clamp
  exact ⟨le_min (le_max_right x lo) h, min_le_right _ _⟩

lemma random_angle_mem (f r : ℚ) (hf : 0 ≤ f) (h0 : 0 ≤ r) (h1 : r ≤ 1) :
    -(1/2) * f ≤ random_angle f r ∧ random_angle f r ≤ (1/2) * f := by
  unfold random_angle
  constructor <;> nlinarith

lemma cxPair_mem (d : CxDraw) (lo hi x1 x2 : ℚ) (h : lo ≤ hi)
    (h1 : lo ≤ x1 ∧ x1 ≤ hi) (h2 : lo ≤ x2 ∧ x2 ≤ hi) :
    (lo ≤ (cxPair d lo hi x1 x2).1 ∧ (cxPair d lo hi x1 x2).1 ≤ hi) ∧
    (lo ≤ (cxPair d lo hi x1 x2).2 ∧ (cxPair d lo hi x1 x2).2 ≤ hi) := by
  rcases clamp_mem lo hi d.c1 h with ⟨ha1, ha2⟩
  rcases clamp_mem lo hi d.c2 h with ⟨hb1, hb2⟩
  unfold cxPair
  split
  · split <;> exact ⟨⟨by assumption, by assumption⟩, ⟨by assumption, by assumption⟩⟩
  · exact ⟨h1, h2⟩

lemma cxAux_length (draws : Nat → CxDraw) (lo hi : ℚ) :
    ∀ (i : Nat) (xs ys : List ℚ),
      (cxAux draws lo hi i xs ys).1.length = xs.length ∧
      (cxAux draws lo hi i xs ys).2.length = ys.length := by
  intro i xs
  induction xs generalizing i with
  | nil => intro ys; simp [cxAux]
  | cons x xs ih =>
    intro ys
    cases ys with
    | nil => simp [cxAux]
    | cons y ys => simp [cxAux, ih]

lemma cxAux_mem (draws : Nat → CxDraw) (lo hi : ℚ) (h : lo ≤ hi) :
    ∀ (i : Nat) (xs ys : List ℚ),
      (∀ x ∈ xs, lo ≤ x ∧ x ≤ hi) → (∀ y ∈ ys, lo ≤ y ∧ y ≤ hi) →
      (∀ z ∈ (cxAux draws lo hi i xs ys).1, lo ≤ z ∧ z ≤ hi) ∧
      (∀ z ∈ (cxAux draws lo hi i xs ys).2, lo ≤ z ∧ z ≤ hi) := by
  intro i xs
  induction xs generalizing i with
  | nil =>
    intro ys hxs hys
    simpa [cxAux] using hys
  | cons x xs ih =>
    intro ys hxs hys
    cases ys with
    | nil => simpa [cxAux] using hxs
    | cons y ys =>
      have hx : lo ≤ x ∧ x ≤ hi := hxs x (by simp)
      have hy : lo ≤ y ∧ y ≤ hi := hys y (by simp)
      have hxs' : ∀ z ∈ xs, lo ≤ z ∧ z ≤ hi := fun z hz => hxs z (by simp [hz])
      have hys' : ∀ z ∈ ys, lo ≤ z ∧ z ≤ hi := fun z hz => hys z (by simp [hz])
      rcases ih (i + 1) ys hxs' hys' with ⟨ihl, ihr⟩
      rcases cxPair_mem (draws i) lo hi x y h hx hy with ⟨hp1, hp2⟩
      constructor
      · intro z hz
        rcases (by simpa [cxAux] using hz :
            z = (cxPair (draws i) lo hi x y).1 ∨ z ∈ (cxAux draws lo hi (i + 1) xs ys).1) with
          hz1 | hz2
        · rw [hz1]; exact hp1
        · exact ihl z hz2
      · intro z hz
        rcases (by simpa [cxAux] using hz :
            z = (cxPair (draws i) lo hi x y).2 ∨ z ∈ (cxAux draws lo hi (i + 1) xs ys).2) with
          hz1 | hz2
        · rw [hz1]; exact hp2
        · exact ihr z hz2

lemma mut_length (draws : Nat → MutDraw) (indpb lo hi : ℚ) :
    ∀ (i : Nat) (xs : List ℚ),
      (mutPolynomialBounded draws indpb lo hi i xs).length = xs.length := by
  intro i xs
  induction xs generalizing i with
  | nil => simp [mutPolynomialBounded]
  | cons x xs ih => simp [mutPolynomialBounded, ih]

lemma mut_mem (draws : Nat → MutDraw) (indpb lo hi : ℚ) (h : lo ≤ hi) :
    ∀ (i : Nat) (xs : List ℚ), (∀ x ∈ xs, lo ≤ x ∧ x ≤ hi) →
      ∀ z ∈ mutPolynomialBounded draws indpb lo hi i xs, lo ≤ z ∧ z ≤ hi := by
  intro i xs
  induction xs generalizing i with
  | nil => intro hxs z hz; simp [mutPolynomialBounded] at hz
  | cons x xs ih =>
    intro hxs z hz
    rcases (by simpa [mutPolynomialBounded] using hz :
        z = (if (draws i).r ≤ indpb then clamp lo hi (draws i).raw else x) ∨
          z ∈ mutPolynomialBounded draws indpb lo hi (i + 1) xs) with hz1 | hz2
    · rw [hz1]
      split
      · exact clamp_mem lo hi (draws i).raw h
      · exact hxs x (by simp)
    · exact ih (i + 1) (fun w hw => hxs w (by simp [hw])) z hz2

lemma mut_getElem (draws : Nat → MutDraw) (indpb lo hi : ℚ) :
    ∀ (i : Nat) (xs : List ℚ) (j : Nat),
      (mutPolynomialBounded draws indpb lo hi i xs)[j]? =
        (xs[j]?).map (fun x =>
          if (draws (i + j)).r ≤ indpb then clamp lo hi (draws (i + j)).raw else x) := by
  intro i xs
  induction xs generalizing i with
  | nil => intro j; simp [mutPolynomialBounded]
  | cons x xs ih =>
    intro j
    cases j with
    | zero => simp [mutPolynomialBounded]
    | succ j =>
      simp only [mutPolynomialBounded, List.getElem?_cons_succ, ih (i + 1) j]
      have : i + 1 + j = i + (j + 1) := by omega
      rw [this]

/-- C5: the allele has exactly max_bonds entries at construction, each within
[-flexibility/2, flexibility/2] whenever the uniform draws lie in [0, 1] and
flexibility is nonnegative; mate preserves the length of both parents' alleles
and keeps every entry within the bounds, and mutate does the same, for any
oracle values of the deap operators. -/
theorem C5_allele_length_and_bounds :
    ∀ (f : ℚ) (max_bonds : Nat) (rnd : Nat → ℚ) (cxd : Nat → CxDraw)
      (mtd : Nat → MutDraw) (selfIndpb indpbArg : ℚ) (xs ys : List ℚ),
      ((initAllele f max_bonds rnd).length = max_bonds) ∧
      (0 ≤ f → (∀ i, 0 ≤ rnd i ∧ rnd i ≤ 1) →
        ∀ x ∈ initAllele f max_bonds rnd, -(1/2) * f ≤ x ∧ x ≤ (1/2) * f) ∧
      ((Torsion.mate f cxd xs ys).1.length = xs.length ∧
        (Torsion.mate f cxd xs ys).2.length = ys.length) ∧
      (0 ≤ f → (∀ x ∈ xs, -(1/2) * f ≤ x ∧ x ≤ (1/2) * f) →
        (∀ y ∈ ys, -(1/2) * f ≤ y ∧ y ≤ (1/2) * f) →
        (∀ z ∈ (Torsion.mate f cxd xs ys).1, -(1/2) * f ≤ z ∧ z ≤ (1/2) * f) ∧
        (∀ z ∈ (Torsion.mate f cxd xs ys).2, -(1/2) * f ≤ z ∧ z ≤ (1/2) * f)) ∧
      ((Torsion.mutate selfIndpb f mtd xs indpbArg).length = xs.length) ∧
      (0 ≤ f → (∀ x ∈ xs, -(1/2) * f ≤ x ∧ x ≤ (1/2) * f) →
        ∀ z ∈ Torsion.mutate selfIndpb f mtd xs indpbArg,
          -(1/2) * f ≤ z ∧ z ≤ (1/2) * f) := by
  intro f max_bonds rnd cxd mtd selfIndpb indpbArg xs ys
  refine ⟨by simp [initAllele], ?_, ?_, ?_, ?_, ?_⟩
  · intro hf hr x hx
    rcases List.mem_map.mp hx with ⟨i, _, hi⟩
    rw [← hi]
    exact random_angle_mem f (rnd i) hf (hr i).1 (hr i).2
  · exact cxAux_length cxd _ _ 0 xs ys
  · intro hf hxs hys
    have hlh : -(1/2) * f ≤ (1/2) * f := by linarith
    exact cxAux_mem cxd _ _ hlh 0 xs ys hxs hys
  · exact mut_length mtd _ _ _ 0 xs
  · intro hf hxs
    have hlh : -(1/2) * f ≤ (1/2) * f := by linarith
    exact mut_mem mtd _ _ _ hlh 0 xs hxs

/-- C5 witness: the invariants at flexibility 10 with concrete oracles, a
3-slot construction and one-slot and two-slot alleles. -/
theorem C5_allele_length_and_bounds_witness :
    (initAllele 10 3 (fun i => 1/2)).length = 3 ∧
    (∀ x ∈ initAllele 10 3 (fun i => 1/2), -(1/2) * 10 ≤ x ∧ x ≤ (1/2) * 10) ∧
    ((Torsion.mate 10 cxDrawEx [1] [2, 3]).1.length = 1 ∧
      (Torsion.mate 10 cxDrawEx [1] [2, 3]).2.length = 2) ∧
    (Torsion.mutate 1 10 mutDrawEx [1] 0).length = 1 ∧
    (∀ z ∈ Torsion.mutate 1 10 mutDrawEx [1] 0, -(1/2) * 10 ≤ z ∧ z ≤ (1/2) * 10) := by
  have h := C5_allele_length_and_bounds 10 3 (fun i => 1/2) cxDrawEx mutDrawEx 1 0 [1] [2, 3]
  exact ⟨h.1, h.2.1 (by norm_num) (fun i => by norm_num),
    h.2.2.1, h.2.2.2.2.1, h.2.2.2.2.2 (by norm_num)
      (by intro x hx; rw [List.mem_singleton] at hx; subst hx; norm_num)⟩

/-- C8 counterexample: with the gene's configured self.indpb = 1 and the call
argument indpb = 0, a mutation oracle whose decision draw is 1/2 fires under
the code (which passes self.indpb to deap) but would not fire under the
claimed use of the argument: the code mutates [0] to [7] while the claimed
behaviour leaves [0] unchanged. -/
theorem C8_counterexample_indpb_argument_ignored :
    Torsion.mutate 1 360 mutDrawEx [0] 0 = [7] ∧
    Torsion.mutateSpec 1 360 mutDrawEx [0] 0 = [0] := by
  constructor <;>
    norm_num [Torsion.mutate, Torsion.mutateSpec, mutPolynomialBounded, mutDrawEx, clamp]

/-- C8 amended: mutate applies elementwise polynomial-bounded mutation with
bounds [-flexibility/2, flexibility/2] using the gene's configured self.indpb
as the per-allele mutation probability; the indpb argument of the call is
ignored, so the result is independent of it and coincides with the documented
behaviour exactly when the argument equals self.indpb. -/
theorem C8_amended_mutate_self_indpb :
    ∀ (selfIndpb f : ℚ) (draws : Nat → MutDraw) (allele : List ℚ) (a1 a2 : ℚ),
      (Torsion.mutate selfIndpb f draws allele a1).length = allele.length ∧
      (∀ j, (Torsion.mutate selfIndpb f draws allele a1)[j]? =
        (allele[j]?).map (fun x =>
          if (draws j).r ≤ selfIndpb then
            clamp (-(1/2) * f) ((1/2) * f) (draws j).raw
          else x)) ∧
      Torsion.mutate selfIndpb f draws allele a1 =
        Torsion.mutate selfIndpb f draws allele a2 ∧
      Torsion.mutate selfIndpb f draws allele a1 =
        Torsion.mutateSpec selfIndpb f draws allele selfIndpb := by
  intro selfIndpb f draws allele a1 a2
  refine ⟨mut_length draws _ _ _ 0 allele, ?_, rfl, rfl⟩
  intro j
  have h := mut_getElem draws selfIndpb (-(1/2) * f) ((1/2) * f) 0 allele j
  simpa [Torsion.mutate] using h

lemma lookupCache_append (c : List (Bond × BondRot)) (e : Bond × BondRot)
    (b : Bond) (br : BondRot) (h : lookupCache c b = some br) :
    lookupCache (c ++ [e]) b = some br := by
  unfold lookupCache at h ⊢
  cases hf : c.find? (fun x => x.1 == b) with
  | none => rw [hf] at h; simp at h
  | some e0 =>
    rw [hf] at h
    rw [List.find?_append, hf]
    simpa using h

lemma lookupCache_none_count (c : List (Bond × BondRot)) (b : Bond)
    (h : lookupCache c b = none) : keyCount c b = 0 := by
  unfold lookupCache at h
  rcases Option.map_eq_none'.mp h with hf
  unfold keyCount
  rw [List.count_eq_zero]
  intro hmem
  rcases List.mem_map.mp hmem with ⟨e, he, hk⟩
  have := List.find?_eq_none.mp hf e he
  simp [hk] at this

lemma count_append_one (l : List Bond) (b b0 : Bond) :
    (l ++ [b]).count b0 = l.count b0 + (if b = b0 then 1 else 0) := by
  rw [List.count_append]
  simp [List.count_cons, beq_iff_eq]

lemma discoverStep_cache_hit (nonrot : List Atom) (anch : Atom)
    (fN : Atom → List Atom → Atom) (engine : Bond → EngineOutcome)
    (st : DiscoveryState) (b : Bond) (br : BondRot)
    (h : lookupCache st.cache b = some br) :
    discoverStep nonrot anch fN engine st b = .ok (st, some br) := by
  unfold discoverStep
  rw [h]

lemma discoverStep_preserves (nonrot : List Atom) (anch : Atom)
    (fN : Atom → List Atom → Atom) (engine : Bond → EngineOutcome)
    (st : DiscoveryState) (b : Bond) (st' : DiscoveryState) (ob : Option BondRot)
    (h : discoverStep nonrot anch fN engine st b = .ok (st', ob)) :
    (∀ b0 br0, lookupCache st.cache b0 = some br0 →
      lookupCache st'.cache b0 = some br0 ∧
        st'.creations.count b0 = st.creations.count b0) ∧
    (∀ b0, keyCount st.cache b0 ≤ 1 → keyCount st'.cache b0 ≤ 1) := by
  have hcrea : ∀ b0 (br0 : BondRot), lookupCache st.cache b = none →
      lookupCache st.cache b0 = some br0 →
      (st.creations ++ [b]).count b0 = st.creations.count b0 := by
    intro b0 br0 hn hs
    rw [count_append_one]
    have : ¬ b = b0 := by
      intro hbe
      rw [hbe, hs] at hn
      exact Option.noConfusion hn
    simp [this]
  unfold discoverStep at h
  cases hl : lookupCache st.cache b with
  | some br =>
    rw [hl] at h
    dsimp only at h
    simp only [Except.ok.injEq, Prod.mk.injEq] at h
    rw [← h.1]
    exact ⟨fun b0 br0 hs => ⟨hs, rfl⟩, fun b0 hk => hk⟩
  | none =>
    rw [hl] at h
    dsimp only at h
    by_cases hc : conditions nonrot b.atoms = true
    · rw [if_pos hc] at h
      cases he : engine b with
      | ok =>
        rw [he] at h
        dsimp only at h
        simp only [Except.ok.injEq, Prod.mk.injEq] at h
        rw [← h.1]
        constructor
        · intro b0 br0 hs
          exact ⟨lookupCache_append st.cache _ b0 br0 hs, hcrea b0 br0 hl hs⟩
        · intro b0 hk
          unfold keyCount
          rw [List.map_append]
          simp only [List.map_cons, List.map_nil]
          rw [count_append_one]
          by_cases hb0 : b = b0
          · have h0 : keyCount st.cache b0 = 0 := by
              rw [← hb0]
              exact lookupCache_none_count st.cache b hl
            unfold keyCount at h0
            simp [h0, hb0]
          · simp only [if_neg hb0, Nat.add_zero]
            exact hk
      | exn catchable msg =>
        rw [he] at h
        dsimp only at h
        by_cases hcat : catchable = true
        · rw [if_pos hcat] at h
          by_cases hcyc : strContains msg "cycle" = true
          · rw [if_pos hcyc] at h
            simp only [Except.ok.injEq, Prod.mk.injEq] at h
            rw [← h.1]
            exact ⟨fun b0 br0 hs => ⟨hs, hcrea b0 br0 hl hs⟩, fun b0 hk => hk⟩
          · rw [if_neg hcyc] at h
            by_cases hused : strContains msg "already used" = true
            · rw [if_pos hused] at h
              simp only [Except.ok.injEq, Prod.mk.injEq] at h
              rw [← h.1]
              exact ⟨fun b0 br0 hs => ⟨hs, hcrea b0 br0 hl hs⟩, fun b0 hk => hk⟩
            · rw [if_neg hused] at h
              exact Except.noConfusion h
        · rw [if_neg hcat] at h
          exact Except.noConfusion h
    · rw [if_neg hc] at h
      simp only [Except.ok.injEq, Prod.mk.injEq] at h
      rw [← h.1]
      exact ⟨fun b0 br0 hs => ⟨hs, rfl⟩, fun b0 hk => hk⟩

lemma rotatable_bonds_preserves (nonrot : List Atom) (anch : Atom)
    (fN : Atom → List Atom → Atom) (engine : Bond → EngineOutcome) :
    ∀ (bonds : List Bond) (st st' : DiscoveryState) (outs : List BondRot),
      rotatable_bonds nonrot anch fN engine st bonds = .ok (st', outs) →
      (∀ b0 br0, lookupCache st.cache b0 = some br0 →
        lookupCache st'.cache b0 = some br0 ∧
          st'.creations.count b0 = st.creations.count b0) ∧
      (∀ b0, keyCount st.cache b0 ≤ 1 → keyCount st'.cache b0 ≤ 1) := by
  intro bonds
  induction bonds with
  | nil =>
    intro st st' outs h
    unfold rotatable_bonds at h
    simp only [Except.ok.injEq, Prod.mk.injEq] at h
    rw [← h.1]
    exact ⟨fun b0 br0 hs => ⟨hs, rfl⟩, fun b0 hk => hk⟩
  | cons b bs ih =>
    intro st st' outs h
    unfold rotatable_bonds at h
    cases hstep : discoverStep nonrot anch fN engine st b with
    | error e =>
      rw [hstep] at h
      dsimp only at h
      exact Except.noConfusion h
    | ok p =>
      rcases p with ⟨st1, ob⟩
      rcases discoverStep_preserves nonrot anch fN engine st b st1 ob hstep with ⟨hp1, hp2⟩
      cases ob with
      | none =>
        rw [hstep] at h
        dsimp only at h
        rcases ih st1 st' outs h with ⟨hq1, hq2⟩
        constructor
        · intro b0 br0 hs
          rcases hp1 b0 br0 hs with ⟨hs1, hc1⟩
          rcases hq1 b0 br0 hs1 with ⟨hs2, hc2⟩
          exact ⟨hs2, by rw [hc2, hc1]⟩
        · intro b0 hk
          exact hq2 b0 (hp2 b0 hk)
      | some br =>
        rw [hstep] at h
        dsimp only at h
        cases hrest : rotatable_bonds nonrot anch fN engine st1 bs with
        | error e =>
          rw [hrest] at h
          dsimp only at h
          exact Except.noConfusion h
        | ok q =>
          rcases q with ⟨st2, brs⟩
          rw [hrest] at h
          dsimp only at h
          simp only [Except.ok.injEq, Prod.mk.injEq] at h
          rcases ih st1 st2 brs hrest with ⟨hq1, hq2⟩
          rw [← h.1]
          constructor
          · intro b0 br0 hs
            rcases hp1 b0 br0 hs with ⟨hs1, hc1⟩
            rcases hq1 b0 br0 hs1 with ⟨hs2, hc2⟩
            exact ⟨hs2, by rw [hc2, hc1]⟩
          · intro b0 hk
            exact hq2 b0 (hp2 b0 hk)

/-- C2 counterexample: for a bond in a cycle, running discovery twice invokes
chimera.BondRot twice on the same bond (one creations entry per invocation):
a rejected bond is never cached, so the engine creation path is re-entered on
every discovery call, against the claim that it is invoked at most once per
distinct bond. -/
theorem C2_counterexample_bondrot_reinvoked :
    rotatable_bonds [] rAtomX fNid cycEngine emptyState [rBond] =
      .ok ({ cache := [], nextId := 0, creations := [rBond], log := [] }, []) ∧
    rotatable_bonds [] rAtomX fNid cycEngine
      { cache := [], nextId := 0, creations := [rBond], log := [] } [rBond] =
      .ok ({ cache := [], nextId := 0, creations := [rBond, rBond], log := [] }, []) ∧
    List.count rBond [rBond, rBond] = 2 :=
  ⟨rfl, rfl, rfl⟩

/-- C2 amended: the cached part of the claim holds: a bond already present in
BONDS_ROTS is answered from the cache (identical handle, no state change and
no engine invocation), any discovery run preserves cached entries and never
invokes the engine on a cached bond (its creations count is unchanged), and
the cache never comes to hold two handles for one bond; only the engine
invocation count for never-successfully-created bonds is unbounded. -/
theorem C2_amended_cache_unique_handle :
    ∀ (nonrot : List Atom) (anch : Atom) (fN : Atom → List Atom → Atom)
      (engine : Bond → EngineOutcome) (st : DiscoveryState) (bonds : List Bond)
      (st' : DiscoveryState) (outs : List BondRot),
      rotatable_bonds nonrot anch fN engine st bonds = .ok (st', outs) →
      (∀ b br, lookupCache st.cache b = some br →
        discoverStep nonrot anch fN engine st b = .ok (st, some br)) ∧
      (∀ b br, lookupCache st.cache b = some br →
        lookupCache st'.cache b = some br ∧
          st'.creations.count b = st.creations.count b) ∧
      (∀ b, keyCount st.cache b ≤ 1 → keyCount st'.cache b ≤ 1) := by
  intro nonrot anch fN engine st bonds st' outs h
  rcases rotatable_bonds_preserves nonrot anch fN engine bonds st st' outs h with ⟨h1, h2⟩
  exact ⟨fun b br hs => discoverStep_cache_hit nonrot anch fN engine st b br hs, h1, h2⟩

/-- C2 amended witness: a state whose cache holds the terminal bond, run over
that bond: the cached handle is yielded, the cache entry and the engine
invocation count survive, and the key stays unique. -/
theorem C2_amended_cache_unique_handle_witness :
    discoverStep [] rAtomX fNid cycEngine cachedSt termBond = .ok (cachedSt, some cachedBR) ∧
    lookupCache cachedSt.cache termBond = some cachedBR ∧
    List.count termBond cachedSt.creations = List.count termBond cachedSt.creations ∧
    keyCount cachedSt.cache termBond ≤ 1 := by
  have h := C2_amended_cache_unique_handle [] rAtomX fNid cycEngine cachedSt [termBond]
    cachedSt [cachedBR] rfl
  exact ⟨h.1 termBond cachedBR rfl, (h.2.1 termBond cachedBR rfl).1,
    (h.2.1 termBond cachedBR rfl).2, h.2.2 termBond (by decide)⟩

/-- C6 counterexample: a discovery run in which the engine fails with a
cycle-mentioning catchable error skips the bond and caches nothing, but the
resulting log is empty: a CycleDetected outcome is not logged (only the
already-used branch calls logger.info). -/
theorem C6_counterexample_cycle_not_logged :
    rotatable_bonds [] rAtomX fNid cycEngine emptyState [rBond] =
      .ok ({ cache := [], nextId := 0, creations := [rBond], log := [] }, []) ∧
    strContains "BondRot: bond is part of a cycle" "cycle" = true :=
  ⟨rfl, rfl⟩

/-- C6 amended: for a cache-missed bond passing classification, a catchable
engine failure (chimera.error or ValueError) mentioning a cycle is skipped
silently without logging; a catchable failure mentioning already used is
logged and skipped; in both cases no handle is cached, so the bond is
re-evaluated on subsequent calls; a catchable failure with any other message
is re-raised, and a non-catchable failure propagates regardless of its
message. -/
theorem C6_amended_discovery_error_handling :
    ∀ (nonrot : List Atom) (anch : Atom) (fN : Atom → List Atom → Atom)
      (engine : Bond → EngineOutcome) (st : DiscoveryState) (b : Bond) (msg : String),
      lookupCache st.cache b = none → conditions nonrot b.atoms = true →
      (engine b = .exn true msg → strContains msg "cycle" = true →
        discoverStep nonrot anch fN engine st b =
          .ok ({ st with creations := st.creations ++ [b] }, none)) ∧
      (engine b = .exn true msg → strContains msg "cycle" = false →
        strContains msg "already used" = true →
        discoverStep nonrot anch fN engine st b =
          .ok ({ st with creations := st.creations ++ [b], log := st.log ++ [msg] }, none)) ∧
      (engine b = .exn true msg → strContains msg "cycle" = false →
        strContains msg "already used" = false →
        discoverStep nonrot anch fN engine st b = .error msg) ∧
      (engine b = .exn false msg →
        discoverStep nonrot anch fN engine st b = .error msg) := by
  intro nonrot anch fN engine st b msg hl hc
  refine ⟨?_, ?_, ?_, ?_⟩
  · intro he hcyc
    simp [discoverStep, hl, hc, he, hcyc]
  · intro he hcyc hused
    simp [discoverStep, hl, hc, he, hcyc, hused]
  · intro he hcyc hused
    simp [discoverStep, hl, hc, he, hcyc, hused]
  · intro he
    simp [discoverStep, hl, hc, he]

/-- C6 amended witness: the four outcomes at the example bond with concrete
engines: cycle (skipped, unlogged), already used (skipped, logged), another
catchable message (re-raised), and a non-catchable cycle-mentioning failure
(propagates). -/
theorem C6_amended_discovery_error_handling_witness :
    discoverStep [] rAtomX fNid cycEngine emptyState rBond =
      .ok ({ emptyState with creations := emptyState.creations ++ [rBond] }, none) ∧
    discoverStep [] rAtomX fNid usedEngine emptyState rBond =
      .ok ({ emptyState with creations := emptyState.creations ++ [rBond], log := emptyState.log ++ ["BondRot: bond already used"] }, none) ∧
    discoverStep [] rAtomX fNid otherEngine emptyState rBond =
      .error "BondRot: unexpected state" ∧
    discoverStep [] rAtomX fNid fatalEngine emptyState rBond =
      .error "BondRot: bond is part of a cycle" :=
  ⟨(C6_amended_discovery_error_handling [] rAtomX fNid cycEngine emptyState rBond
      "BondRot: bond is part of a cycle" rfl rfl).1 rfl rfl,
   (C6_amended_discovery_error_handling [] rAtomX fNid usedEngine emptyState rBond
      "BondRot: bond already used" rfl rfl).2.1 rfl rfl rfl,
   (C6_amended_discovery_error_handling [] rAtomX fNid otherEngine emptyState rBond
      "BondRot: unexpected state" rfl rfl).2.2.1 rfl rfl rfl,
   (C6_amended_discovery_error_handling [] rAtomX fNid fatalEngine emptyState rBond
      "BondRot: bond is part of a cycle" rfl rfl).2.2.2 rfl⟩

/-- C10: a bond present in the BONDS_ROTS cache is yielded as the cached
handle with no state change, even when the requesting gene's classification
(nonrotatable set, terminal rule, atom-type rule) would reject the bond: the
cache lookup precedes the conditions check. -/
theorem C10_cache_hit_skips_classification :
    ∀ (nonrot : List Atom) (anch : Atom) (fN : Atom → List Atom → Atom)
      (engine : Bond → EngineOutcome) (st : DiscoveryState) (b : Bond) (br : BondRot),
      lookupCache st.cache b = some br → conditions nonrot b.atoms = false →
      discoverStep nonrot anch fN engine st b = .ok (st, some br) := by
  intro nonrot anch fN engine st b br hs hc
  exact discoverStep_cache_hit nonrot anch fN engine st b br hs

/-- C10 witness: the cached terminal bond is rejected by conditions yet
yielded from the cache. -/
theorem C10_cache_hit_skips_classification_witness :
    lookupCache cachedSt.cache termBond = some cachedBR ∧
    conditions [] termBond.atoms = false ∧
    discoverStep [] rAtomX fNid cycEngine cachedSt termBond = .ok (cachedSt, some cachedBR) :=
  ⟨rfl, rfl, C10_cache_hit_skips_classification [] rAtomX fNid cycEngine cachedSt termBond
    cachedBR rfl rfl⟩

/-- C7 counterexample: with an explicit anchor spec naming a molecule absent
from parent._molecules, the anchor property raises KeyError even though the
target molecule's donor atom exists: a molecule-name lookup miss in step 1
does not fall through silently, and an error propagates without total
failure. -/
theorem C7_counterexample_keyerror_on_molecule_miss :
    anchor parentEx "lig" (some ("missing", 5)) = .error (.keyError "missing") ∧
    donorOf parentEx "lig" = .ok donorAtom :=
  ⟨rfl, rfl⟩

/-- C7 amended: the precedence chain holds with one exception: in step 1 only
a missing atom serial (StopIteration) falls through silently, while a missing
molecule name raises KeyError; step 2 falls through to the donor on an absent
Search collaborator, a missing atoms or anchor attribute, or an unmatched
serial, and the explicit spec wins when it resolves, then the Search anchor,
then the donor. -/
theorem C7_amended_anchor_precedence :
    (∀ (p : Parent) (t mol : String) (serial : Nat) (mg : Gene) (a : Atom),
      lookupGene p.molecules mol = some mg → findAtom serial mg.compoundMol = some a →
      anchor p t (some (mol, serial)) = .ok a) ∧
    (∀ (p : Parent) (t mol : String) (serial : Nat),
      lookupGene p.molecules mol = none →
      anchor p t (some (mol, serial)) = .error (.keyError mol)) ∧
    (∀ (p : Parent) (t mol : String) (serial : Nat) (mg : Gene),
      lookupGene p.molecules mol = some mg → findAtom serial mg.compoundMol = none →
      anchor p t (some (mol, serial)) = anchor p t none) ∧
    (∀ (p : Parent) (t : String),
      findSearch p t = none → anchor p t none = donorOf p t) ∧
    (∀ (p : Parent) (t : String) (sg tg : Gene) (ats : List Atom) (serial : Nat) (a : Atom),
      findSearch p t = some sg → lookupGene p.genes t = some tg →
      tg.atomList = some ats → sg.searchAnchor = some serial →
      findAtom serial ats = some a → anchor p t none = .ok a) ∧
    (∀ (p : Parent) (t : String) (sg tg : Gene),
      findSearch p t = some sg → lookupGene p.genes t = some tg →
      (tg.atomList = none ∨ sg.searchAnchor = none ∨
        (∃ ats serial, tg.atomList = some ats ∧ sg.searchAnchor = some serial ∧
          findAtom serial ats = none)) →
      anchor p t none = donorOf p t) := by
  refine ⟨?_, ?_, ?_, ?_, ?_, ?_⟩
  · intro p t mol serial mg a hm hf
    simp [anchor, hm, hf]
  · intro p t mol serial hm
    simp [anchor, hm]
  · intro p t mol serial mg hm hf
    simp [anchor, hm, hf]
  · intro p t hs
    simp [anchor, hs]
  · intro p t sg tg ats serial a hs hg hat han hf
    simp [anchor, hs, hg, hat, han, hf]
  · intro p t sg tg hs hg hdis
    rcases hdis with hat | han | ⟨ats, serial, hat, han, hf⟩
    · simp [anchor, hs, hg, hat]
    · cases hat : tg.atomList with
      | none => simp [anchor, hs, hg, hat]
      | some ats => simp [anchor, hs, hg, hat, han]
    · simp [anchor, hs, hg, hat, han, hf]

/-- C7 amended witness: the precedence at the concrete example parents: a
resolving explicit spec returns its atom; a missing molecule name raises; a
missing serial falls through; no Search collaborator gives the donor; a
resolving Search anchor gives its atom; an unresolving one gives the donor. -/
theorem C7_amended_anchor_precedence_witness :
    anchor parentEx "lig" (some ("lig", 9)) = .ok donorAtom ∧
    anchor parentEx "lig" (some ("missing", 9)) = .error (.keyError "missing") ∧
    anchor parentEx "lig" (some ("lig", 77)) = anchor parentEx "lig" none ∧
    anchor parentEx "lig" none = donorOf parentEx "lig" ∧
    anchor parentSearchEx "lig" none = .ok rAtomX ∧
    anchor parentSearchMiss "lig" none = donorOf parentSearchMiss "lig" :=
  ⟨C7_amended_anchor_precedence.1 parentEx "lig" "lig" 9 targetGene donorAtom rfl rfl,
   C7_amended_anchor_precedence.2.1 parentEx "lig" "missing" 9 rfl,
   C7_amended_anchor_precedence.2.2.1 parentEx "lig" "lig" 77 targetGene rfl rfl,
   C7_amended_anchor_precedence.2.2.2.1 parentEx "lig" rfl,
   C7_amended_anchor_precedence.2.2.2.2.1 parentSearchEx "lig" searchGene targetGene
     [donorAtom, rAtomX] 3 rAtomX rfl rfl rfl rfl rfl,
   C7_amended_anchor_precedence.2.2.2.2.2 parentSearchMiss "lig" searchGeneMiss targetGene
     rfl rfl (Or.inr (Or.inr ⟨[donorAtom, rAtomX], 77, rfl, rfl, rfl⟩))⟩

end GaudiTorsion
